import Mathlib

/-!
Shallow embedding of the invoice-OCR backend (`backend/app` of the
`ocr-in-sap` repository) and verification of its specification.

Embedded components:
* `DocumentAIService._parse_extraction_results`  (result parser)
* `DocumentAIService._poll_for_results`          (bounded poll loop)
* `UAAService.get_access_token`                  (OAuth token cache)
* `invoice_router.upload_invoice`                (upload orchestration)
* `DatabaseService` connection discipline and queries

Python values are modelled as follows: JSON strings become `String`,
possibly-missing values become `Option`, numbers (confidences, times)
become `ℚ`, byte/row counts become `ℕ`, and raised exceptions become
`Except String` results or explicit error constructors.  Network and
database effects are passed in as explicit parameters (the response the
environment would deliver) and observable side effects (sleeps, polls,
insert attempts, temp-file state) are returned as data.
-/

deriving instance DecidableEq for Except

namespace OcrInSap

/-! ### Result parser: `DocumentAIService._parse_extraction_results`

A vendor header field is a JSON object; the parser reads
`field.get("name", "")`, `field.get("value")` and
`field.get("confidence", 0)`.  A missing `name` defaults to `""` so the
name is modelled as a plain `String`; `value` may be absent (`none`) and
`confidence` defaults to `0` when absent.
-/

structure HeaderField where
  name : String
  value : Option String
  confidence : ℚ
deriving DecidableEq

/-- Python truthiness of `field.get("value")` for string-valued fields:
`None` and `""` are falsy, every other string is truthy. -/
def valueTruthy : Option String → Bool
  | none => false
  | some s => s ≠ ""

/-- One iteration of the parser's `for field in header_fields` loop.
The accumulator is `(invoice_number, vendor_name, confidence_scores)`;
a later truthy match overwrites an earlier one, exactly as the Python
assignments do. -/
def scanStep (acc : Option String × Option String × List ℚ) (f : HeaderField) :
    Option String × Option String × List ℚ :=
  let confs := if f.confidence ≠ 0 then acc.2.2 ++ [f.confidence] else acc.2.2
  let inv := if f.name = "invoiceNumber" ∧ valueTruthy f.value then f.value else acc.1
  let ven := if f.name = "senderName" ∧ valueTruthy f.value then f.value else acc.2.1
  (inv, ven, confs)

/-- The parser's field loop: `invoice_number = None`, `vendor_name = None`,
`confidence_scores = []`, then iterate `scanStep` over the list. -/
def scanFields (fields : List HeaderField) : Option String × Option String × List ℚ :=
  fields.foldl scanStep (none, none, [])

/-- Floor of a rational, written without the `FloorRing` instance so that
concrete values reduce by `decide`/`rfl`. -/
def ratFloor (q : ℚ) : ℤ := Int.fdiv q.num q.den

/-- Round a rational to the nearest integer, ties to even — the behaviour
of Python 3's `round` (idealized over exact rationals). -/
def roundHalfEven (q : ℚ) : ℤ :=
  let f := ratFloor q
  if q - f < 1/2 then f
  else if 1/2 < q - f then f + 1
  else if f % 2 = 0 then f else f + 1

/-- `round(x, 2)` of Python, idealized over exact rationals. -/
def round2 (q : ℚ) : ℚ := (roundHalfEven (q * 100) : ℚ) / 100

structure ParsedInvoice where
  invoice_number : String
  vendor_name : String
  confidence_score : ℚ
deriving DecidableEq

/-- Error message raised when no invoice number was found (the inner
message, wrapped by the parser's blanket `except Exception` clause). -/
def invoiceNumberMissingMsg : String :=
  "Error parsing extraction results: Invoice number not found in extraction results"

/-- Error message raised when no vendor name was found. -/
def vendorNameMissingMsg : String :=
  "Error parsing extraction results: Vendor name not found in extraction results"

/-- `DocumentAIService._parse_extraction_results`, over the header-field
list of the extraction result (`extraction_result["extraction"]["headerFields"]`).
`raw_json` (a verbatim serialization of the input) is not modelled. -/
def parse_extraction_results (fields : List HeaderField) : Except String ParsedInvoice :=
  let scanned := scanFields fields
  let avg : ℚ :=
    if scanned.2.2.isEmpty then 0 else scanned.2.2.sum / (scanned.2.2.length : ℚ)
  if scanned.1.getD "" = "" then .error invoiceNumberMissingMsg
  else if scanned.2.1.getD "" = "" then .error vendorNameMissingMsg
  else .ok ⟨scanned.1.getD "", scanned.2.1.getD "", round2 avg⟩

/-! Spec-side descriptions used to state the parser claims. -/

/-- `overrideWith base upd` is `upd` when `upd` carries a value and
`base` otherwise: the effect of a later assignment over an earlier one. -/
def overrideWith (base upd : Option String) : Option String :=
  match upd with
  | some v => some v
  | none => base

/-- The value of the LAST field of the list named `name` whose value is
truthy (non-empty); `none` when there is no such field. -/
def lastNonEmptyMatch (name : String) : List HeaderField → Option String
  | [] => none
  | f :: rest =>
      if f.name = name ∧ valueTruthy f.value then
        overrideWith f.value (lastNonEmptyMatch name rest)
      else lastNonEmptyMatch name rest

/-- `noNonEmptyField name fields`: the list contains no field named
`name` with a truthy (non-empty) value. -/
def noNonEmptyField (name : String) (fields : List HeaderField) : Prop :=
  ∀ f ∈ fields, ¬ (f.name = name ∧ valueTruthy f.value = true)

instance (name : String) (fields : List HeaderField) :
    Decidable (noNonEmptyField name fields) := by
  unfold noNonEmptyField; infer_instance

/-- The value of the FIRST field of the list named `name` whose value is
truthy — what the claim under test says the parser returns. -/
def firstNonEmptyMatch (name : String) : List HeaderField → Option String
  | [] => none
  | f :: rest =>
      if f.name = name ∧ valueTruthy f.value then f.value
      else firstNonEmptyMatch name rest

/-- All confidences of the field list that are present and non-zero, in
list order. -/
def nonZeroConfs (fields : List HeaderField) : List ℚ :=
  (fields.filter (fun f => f.confidence ≠ 0)).map (·.confidence)

/-- Arithmetic mean of the present non-zero confidences; `0` when there
are none. -/
def avgNonZeroConf (fields : List HeaderField) : ℚ :=
  if (nonZeroConfs fields).isEmpty then 0
  else (nonZeroConfs fields).sum / ((nonZeroConfs fields).length : ℚ)

/-! ### Poll loop: `DocumentAIService._poll_for_results`

Each poll performs an HTTP GET; the response is modelled as its HTTP
status code and the decoded JSON body: `result.get("status")`,
`result.get("error", ...)` and the rest of the payload kept opaque.
The environment supplies the response the vendor would deliver to the
`n`-th poll as a function `ℕ → PollResponse`.  `asyncio.sleep` calls are
counted in the result, as is the number of polls performed. -/

structure PollResponse where
  httpStatus : ℕ
  status : Option String
  error : Option String
  payload : String
deriving DecidableEq

/-- `self.max_poll_attempts = 30`. -/
def max_poll_attempts : ℕ := 30

/-- `self.poll_interval = 2` (seconds slept per retry). -/
def poll_interval : ℕ := 2

inductive PollOutcome where
  /-- `status == "DONE"`: the full result body is returned. -/
  | done (body : PollResponse)
  /-- non-200 HTTP response: `Polling failed: ...`. -/
  | httpError (code : ℕ)
  /-- `status == "FAILED"`. -/
  | failed (msg : String)
  /-- a status outside DONE/FAILED/PENDING/RUNNING. -/
  | unknownStatus (msg : String)
  /-- attempt budget exhausted. -/
  | timeout (msg : String)
deriving DecidableEq

structure PollResult where
  outcome : PollOutcome
  polls : ℕ
  sleeps : ℕ
deriving DecidableEq

/-- Python's f-string rendering of `result.get("status")`. -/
def statusRepr : Option String → String
  | none => "None"
  | some s => s

def failedStatusMsg (r : PollResponse) : String :=
  "Document extraction failed: " ++ r.error.getD "Unknown error"

def unknownStatusMsg (r : PollResponse) : String :=
  "Unknown status: " ++ statusRepr r.status

def timeoutMsg : String :=
  "Extraction timeout after " ++ toString (max_poll_attempts * poll_interval) ++ " seconds"

/-- The body of `for attempt in range(self.max_poll_attempts)`, with the
remaining attempt budget as fuel and `i` the index of the next response.
When the budget is exhausted the timeout exception is raised. -/
def pollAux (resp : ℕ → PollResponse) : ℕ → ℕ → PollResult
  | 0, _ => ⟨.timeout timeoutMsg, 0, 0⟩
  | fuel + 1, i =>
    let r := resp i
    if r.httpStatus ≠ 200 then ⟨.httpError r.httpStatus, 1, 0⟩
    else if r.status = some "DONE" then ⟨.done r, 1, 0⟩
    else if r.status = some "FAILED" then ⟨.failed (failedStatusMsg r), 1, 0⟩
    else if r.status = some "PENDING" ∨ r.status = some "RUNNING" then
      let rest := pollAux resp fuel (i + 1)
      ⟨rest.outcome, rest.polls + 1, rest.sleeps + 1⟩
    else ⟨.unknownStatus (unknownStatusMsg r), 1, 0⟩

/-- `DocumentAIService._poll_for_results`. -/
def poll_for_results (resp : ℕ → PollResponse) : PollResult :=
  pollAux resp max_poll_attempts 0

/-- A response that sends the loop around again: HTTP 200 with status
PENDING or RUNNING. -/
def isRetry (r : PollResponse) : Prop :=
  r.httpStatus = 200 ∧ (r.status = some "PENDING" ∨ r.status = some "RUNNING")

instance (r : PollResponse) : Decidable (isRetry r) := by
  unfold isRetry; infer_instance

/-! ### Token cache: `UAAService.get_access_token`

State is the pair of instance attributes `_cached_token` (initially
`None`) and `_token_expires_at` (initially `0`).  `time.time()` is the
explicit parameter `now` (the source calls it twice a few microseconds
apart; the model uses one instant for both uses).  The identity
endpoint's answer is the explicit parameter `resp`. -/

structure UAAState where
  cached_token : Option String
  token_expires_at : ℚ
deriving DecidableEq

/-- Response of the identity endpoint: HTTP status, body text, and the
decoded JSON fields `access_token` and `expires_in`. -/
structure TokenResponse where
  status_code : ℕ
  text : String
  access_token : Option String
  expires_in : Option ℚ
deriving DecidableEq

inductive TokenResult where
  /-- a bearer token was returned to the caller. -/
  | token (t : String)
  /-- `httpx.HTTPError` raised on a non-200 identity response. -/
  | authError (msg : String)
  /-- `KeyError` from `token_data["access_token"]`. -/
  | keyError
deriving DecidableEq

/-- Python truthiness of `self._cached_token`. -/
def tokenTruthy : Option String → Bool
  | none => false
  | some s => s ≠ ""

def authFailMsg (resp : TokenResponse) : String :=
  "UAA authentication failed: " ++ toString resp.status_code ++ " - " ++ resp.text

/-- The guard `self._cached_token and time.time() < (self._token_expires_at - 300)`. -/
def cacheValid (st : UAAState) (now : ℚ) : Prop :=
  tokenTruthy st.cached_token = true ∧ now < st.token_expires_at - 300

instance (st : UAAState) (now : ℚ) : Decidable (cacheValid st now) := by
  unfold cacheValid; infer_instance

/-- `UAAService.get_access_token`.  Returns the call's result, the state
of the cache after the call, and whether a request was sent to the
identity endpoint (at most one per call: the source has no retry). -/
def get_access_token (st : UAAState) (now : ℚ) (resp : TokenResponse) :
    TokenResult × UAAState × Bool :=
  if cacheValid st now then
    (.token (st.cached_token.getD ""), st, false)
  else if resp.status_code ≠ 200 then
    (.authError (authFailMsg resp), st, true)
  else
    match resp.access_token with
    | none => (.keyError, st, true)
    | some tok => (.token tok, ⟨some tok, now + resp.expires_in.getD 43200⟩, true)

/-! ### Upload handler: `invoice_router.upload_invoice`

The request carries the client's file name and the buffered content's
byte count.  The environment supplies the outcomes the collaborators
would produce: the Document-AI extraction (`Except`), the primary
database insert, and the best-effort FAILED-record insert.  The result
records the HTTP outcome, the best-effort insert attempt (if any) with
the result the database gave it — which the handler discards — and
whether the temporary file still exists when the request completes. -/

structure UploadRequest where
  filename : String
  content_size : ℕ
deriving DecidableEq

structure UploadEnv where
  max_file_size_mb : ℕ
  extraction : Except String ParsedInvoice
  primary_insert : Except String ℕ
  failure_insert : Except String ℕ
deriving DecidableEq

/-- The arguments of the best-effort `insert_invoice` call on the
failure path that the claims talk about. -/
structure FailureRecord where
  status : String
  error_message : String
deriving DecidableEq

inductive UploadOutcome where
  | response (invoice_id : ℕ) (invoice_number vendor_name status message : String)
  | httpError (code : ℕ) (detail : String)
deriving DecidableEq

structure UploadResult where
  outcome : UploadOutcome
  failure_record : Option (FailureRecord × Except String ℕ)
  temp_file_exists : Bool
deriving DecidableEq

/-- `file.filename.lower().endswith('.pdf')`: lower-case the characters
and test for the `.pdf` suffix (spelled over `List Char` so that the
test evaluates). -/
def pdfName (s : String) : Bool :=
  let cs := s.data.map Char.toLower
  let suf := ".pdf".data
  cs.drop (cs.length - suf.length) == suf

def invalidTypeMsg : String := "Invalid file type. Only PDF files are allowed."

def oversizeMsg (maxMb : ℕ) : String :=
  "File size exceeds maximum allowed size of " ++ toString maxMb ++ "MB"

def processFailMsg (e : String) : String := "Failed to process invoice: " ++ e

/-- The `finally` block: `if temp_filepath.exists(): os.remove(temp_filepath)`
(removal itself is assumed to succeed). -/
def cleanupTemp (tempExists : Bool) : Bool :=
  if tempExists then false else tempExists

/-- The `try` body, entered after `aiofiles.open(temp_filepath, 'wb')`
has created the temporary file (hence `temp_file_exists = true` on every
one of its exits).  Any non-`HTTPException` failure — extraction,
parsing or the primary insert — lands in the `except Exception` clause,
which attempts one best-effort FAILED record, ignores that insert's own
outcome, and raises a 422. -/
def uploadTryBody (req : UploadRequest) (env : UploadEnv) : UploadResult :=
  if req.content_size > env.max_file_size_mb * 1024 * 1024 then
    ⟨.httpError 400 (oversizeMsg env.max_file_size_mb), none, true⟩
  else
    match env.extraction with
    | .error e =>
        ⟨.httpError 422 (processFailMsg e), some (⟨"FAILED", e⟩, env.failure_insert), true⟩
    | .ok parsed =>
        match env.primary_insert with
        | .error e =>
            ⟨.httpError 422 (processFailMsg e), some (⟨"FAILED", e⟩, env.failure_insert), true⟩
        | .ok id =>
            ⟨.response id parsed.invoice_number parsed.vendor_name "PROCESSED"
              "Invoice processed successfully", none, true⟩

/-- `invoice_router.upload_invoice`.  The file-type rejection happens
before the temporary file is created and before the `try/finally`; every
path through the `try` runs the `finally` cleanup. -/
def upload_invoice (req : UploadRequest) (env : UploadEnv) : UploadResult :=
  if pdfName req.filename = false then
    ⟨.httpError 400 invalidTypeMsg, none, false⟩
  else
    let r := uploadTryBody req env
    ⟨r.outcome, r.failure_record, cleanupTemp r.temp_file_exists⟩

/-! ### Database service: `DatabaseService`

A stored row (`INVOICES` table).  `raw_text` is the audit payload,
`upload_timestamp` an abstract instant (seconds). -/

structure InvoiceRow where
  invoice_id : ℕ
  invoice_number : String
  vendor_name : String
  upload_timestamp : ℕ
  file_name : String
  file_size_kb : ℚ
  raw_text : String
  status : String
  error_message : Option String
deriving DecidableEq

/-- Connection-lifecycle events of `DatabaseService.get_connection`, in
the order they are issued. -/
inductive ConnEvent where
  | connect
  | commit
  | rollback
  | close
deriving DecidableEq

/-- `DatabaseService.get_connection` wrapped around an operation body:
connect, run the body, commit on success; on failure roll back (when a
connection exists) and re-raise; close in the `finally`.  When
`dbapi.connect` itself fails, `connection` is still `None`, so neither
rollback nor close runs and the connect error propagates. -/
def withConnection {α : Type} (connectOk : Bool) (body : Except String α) :
    Except String α × List ConnEvent :=
  if connectOk = false then
    (.error "connection failed", [])
  else
    match body with
    | .ok a => (.ok a, [.connect, .commit, .close])
    | .error e => (.error e, [.connect, .rollback, .close])

/-- Relation ordering rows by upload timestamp, newest first
(`ORDER BY UPLOAD_TIMESTAMP DESC`). -/
def tsDesc (a b : InvoiceRow) : Prop := b.upload_timestamp ≤ a.upload_timestamp

instance : DecidableRel tsDesc :=
  fun a b => Nat.decLe b.upload_timestamp a.upload_timestamp

instance : IsTotal InvoiceRow tsDesc :=
  ⟨fun a b => Nat.le_total b.upload_timestamp a.upload_timestamp⟩

instance : IsTrans InvoiceRow tsDesc :=
  ⟨fun _ _ _ h1 h2 => Nat.le_trans h2 h1⟩

/-- The rows produced by
`SELECT ... ORDER BY UPLOAD_TIMESTAMP DESC LIMIT ? OFFSET ?`. -/
def pageOf (db : List InvoiceRow) (limit offset : ℕ) : List InvoiceRow :=
  ((db.insertionSort tsDesc).drop offset).take limit

/-- Arguments of `DatabaseService.insert_invoice`. -/
structure InsertArgs where
  invoice_number : String
  vendor_name : String
  file_name : String
  file_size_kb : ℚ
  raw_text : String
  status : String
  error_message : Option String
deriving DecidableEq

/-- The store-generated identity value (`CURRENT_IDENTITY_VALUE()`). -/
def nextId (db : List InvoiceRow) : ℕ :=
  db.foldr (fun r m => max r.invoice_id m) 0 + 1

/-- The four persistence operations of `DatabaseService`. -/
inductive DbOp where
  | insert (a : InsertArgs)
  | get (id : ℕ)
  | list (limit offset : ℕ)
  | ping
deriving DecidableEq

inductive DbValue where
  | inserted (id : ℕ)
  | fetchedRow (r : Option InvoiceRow)
  | listed (rs : List InvoiceRow)
  | pinged (b : Bool)
deriving DecidableEq

/-- The body each operation runs on the open connection; `execOk = false`
models the cursor raising (store unreachable, write rejected, ...).
`now` is the insert's upload timestamp. -/
def opBody (execOk : Bool) (db : List InvoiceRow) (now : ℕ) :
    DbOp → Except String (DbValue × List InvoiceRow)
  | .insert a =>
      if execOk then
        let id := nextId db
        .ok (.inserted id,
          db ++ [⟨id, a.invoice_number, a.vendor_name, now, a.file_name,
            a.file_size_kb, a.raw_text, a.status, a.error_message⟩])
      else .error "database error"
  | .get id =>
      if execOk then .ok (.fetchedRow (db.find? (fun r => r.invoice_id = id)), db)
      else .error "database error"
  | .list limit offset =>
      if execOk then .ok (.listed (pageOf db limit offset), db)
      else .error "database error"
  | .ping =>
      if execOk then .ok (.pinged true, db) else .error "database error"

/-- A persistence operation run inside `get_connection` — the shape of
`insert_invoice`, `get_invoice`, `get_all_invoices` and
`test_connection`. -/
def runOp (connectOk execOk : Bool) (db : List InvoiceRow) (now : ℕ) (op : DbOp) :
    Except String (DbValue × List InvoiceRow) × List ConnEvent :=
  withConnection connectOk (opBody execOk db now op)

/-! ### List endpoint: `invoice_router.get_all_invoices` -/

structure ListResponse where
  invoices : List InvoiceRow
  total : ℕ
  limit : ℕ
  offset : ℕ
deriving DecidableEq

/-- The list endpoint on its success path: fetch the page, then return
it with `total=len(invoice_details)` and the echoed parameters. -/
def get_all_invoices_endpoint (db : List InvoiceRow) (limit offset : ℕ) : ListResponse :=
  let invs := pageOf db limit offset
  ⟨invs, invs.length, limit, offset⟩

/-! ### Concrete test vectors -/

/-- The spec's example result: `invoiceNumber="INV-1"` (confidence 0.9)
and `senderName="Acme"` (confidence 0.8). -/
def exampleFields : List HeaderField :=
  [⟨"invoiceNumber", some "INV-1", 9/10⟩, ⟨"senderName", some "Acme", 4/5⟩]

/-- Two non-empty `invoiceNumber` fields with different values. -/
def dupInvoiceFields : List HeaderField :=
  [⟨"invoiceNumber", some "A", 9/10⟩, ⟨"invoiceNumber", some "B", 9/10⟩,
   ⟨"senderName", some "S", 4/5⟩]

/-- Confidences 1/4, 1/2, 1/2: mean 5/12, which has no exact two-decimal
representation. -/
def thirdsFields : List HeaderField :=
  [⟨"invoiceNumber", some "I", 1/4⟩, ⟨"senderName", some "V", 1/2⟩,
   ⟨"currency", some "EUR", 1/2⟩]

/-- A result carrying other fields but no `senderName`. -/
def noSenderFields : List HeaderField :=
  [⟨"invoiceNumber", some "INV-9", 1⟩, ⟨"currency", some "EUR", 1⟩]

/-- The vendor answering PENDING, PENDING, then DONE. -/
def ppDoneResp : ℕ → PollResponse := fun i =>
  if i < 2 then ⟨200, some "PENDING", none, ""⟩
  else ⟨200, some "DONE", none, "payload"⟩

/-! ## Lemmas about the parser's field scan -/

theorem valueTruthy_eq_true_iff (v : Option String) :
    valueTruthy v = true ↔ ∃ s, v = some s ∧ s ≠ "" := by
  cases v <;> simp [valueTruthy]

theorem overrideWith_none_left (t : Option String) : overrideWith none t = t := by
  cases t <;> rfl

theorem overrideWith_some_absorb (acc t : Option String) (s : String) :
    overrideWith acc (overrideWith (some s) t) = overrideWith (some s) t := by
  cases t <;> rfl

theorem foldl_scanStep_num (fields : List HeaderField) :
    ∀ acc : Option String × Option String × List ℚ,
      (List.foldl scanStep acc fields).1 =
        overrideWith acc.1 (lastNonEmptyMatch "invoiceNumber" fields) := by
  induction fields with
  | nil => intro acc; rfl
  | cons f rest ih =>
      intro acc
      rw [List.foldl_cons, ih]
      by_cases h : f.name = "invoiceNumber" ∧ valueTruthy f.value = true
      · obtain ⟨s, hs, -⟩ := (valueTruthy_eq_true_iff f.value).mp h.2
        simp only [lastNonEmptyMatch, if_pos h, scanStep]
        rw [hs]
        exact (overrideWith_some_absorb _ _ _).symm
      · simp only [lastNonEmptyMatch, if_neg h, scanStep]

theorem foldl_scanStep_sender (fields : List HeaderField) :
    ∀ acc : Option String × Option String × List ℚ,
      (List.foldl scanStep acc fields).2.1 =
        overrideWith acc.2.1 (lastNonEmptyMatch "senderName" fields) := by
  induction fields with
  | nil => intro acc; rfl
  | cons f rest ih =>
      intro acc
      rw [List.foldl_cons, ih]
      by_cases h : f.name = "senderName" ∧ valueTruthy f.value = true
      · obtain ⟨s, hs, -⟩ := (valueTruthy_eq_true_iff f.value).mp h.2
        simp only [lastNonEmptyMatch, if_pos h, scanStep]
        rw [hs]
        exact (overrideWith_some_absorb _ _ _).symm
      · simp only [lastNonEmptyMatch, if_neg h, scanStep]

theorem foldl_scanStep_confs (fields : List HeaderField) :
    ∀ acc : Option String × Option String × List ℚ,
      (List.foldl scanStep acc fields).2.2 = acc.2.2 ++ nonZeroConfs fields := by
  induction fields with
  | nil => intro acc; simp [nonZeroConfs]
  | cons f rest ih =>
      intro acc
      rw [List.foldl_cons, ih]
      by_cases h : f.confidence ≠ 0
      · simp [scanStep, nonZeroConfs, List.filter_cons, h]
      · simp [scanStep, nonZeroConfs, List.filter_cons, h]

theorem scanFields_num (fields : List HeaderField) :
    (scanFields fields).1 = lastNonEmptyMatch "invoiceNumber" fields := by
  rw [scanFields, foldl_scanStep_num, overrideWith_none_left]

theorem scanFields_sender (fields : List HeaderField) :
    (scanFields fields).2.1 = lastNonEmptyMatch "senderName" fields := by
  rw [scanFields, foldl_scanStep_sender, overrideWith_none_left]

theorem scanFields_confs (fields : List HeaderField) :
    (scanFields fields).2.2 = nonZeroConfs fields := by
  rw [scanFields, foldl_scanStep_confs]; rfl

theorem lastNonEmptyMatch_eq_none (name : String) (fields : List HeaderField)
    (h : noNonEmptyField name fields) : lastNonEmptyMatch name fields = none := by
  induction fields with
  | nil => rfl
  | cons f rest ih =>
      have hf : ¬ (f.name = name ∧ valueTruthy f.value = true) :=
        h f (List.mem_cons_self f rest)
      rw [lastNonEmptyMatch, if_neg hf]
      exact ih (fun g hg => h g (List.mem_cons_of_mem f hg))

/-- Characterization of a successful parse: the two guards were false,
so the scanned invoice number and vendor name are present, and the score
is the rounded mean of the non-zero confidences. -/
theorem parse_ok_components (fields : List HeaderField) (r : ParsedInvoice)
    (h : parse_extraction_results fields = .ok r) :
    (scanFields fields).1 = some r.invoice_number ∧
    (scanFields fields).2.1 = some r.vendor_name ∧
    r.confidence_score = round2 (avgNonZeroConf fields) := by
  simp only [parse_extraction_results] at h
  by_cases h1 : (scanFields fields).1.getD "" = ""
  · rw [if_pos h1] at h; exact absurd h (by simp)
  · rw [if_neg h1] at h
    by_cases h2 : (scanFields fields).2.1.getD "" = ""
    · rw [if_pos h2] at h; exact absurd h (by simp)
    · rw [if_neg h2] at h
      have hr := Except.ok.inj h
      subst hr
      refine ⟨?_, ?_, ?_⟩
      · cases hv : (scanFields fields).1 with
        | none => exact absurd (by rw [hv]; rfl) h1
        | some s => rfl
      · cases hv : (scanFields fields).2.1 with
        | none => exact absurd (by rw [hv]; rfl) h2
        | some s => rfl
      · show round2 _ = _
        rw [scanFields_confs]
        rfl

section DecideOnRat

attribute [local semireducible] Rat.add Rat.mul Rat.inv Rat.sub

/-- C1: the claim says the FIRST non-empty duplicate wins; on
`dupInvoiceFields` the first non-empty `invoiceNumber` field holds
`"A"`, yet the parser returns `"B"` — the claim is false. -/
theorem parse_first_match_counterexample :
    firstNonEmptyMatch "invoiceNumber" dupInvoiceFields = some "A" ∧
    (parse_extraction_results dupInvoiceFields).toOption.map
      (fun r => r.invoice_number) = some "B" ∧
    some "B" ≠ some "A" := by decide

/-- C1 (amended): for every vendor result whose header-field list
contains duplicate non-empty `invoiceNumber` or `senderName` fields, the
parser returns the value of the LAST non-empty match for each name. -/
theorem parse_last_match_wins (fields : List HeaderField) (r : ParsedInvoice)
    (h : parse_extraction_results fields = .ok r) :
    lastNonEmptyMatch "invoiceNumber" fields = some r.invoice_number ∧
    lastNonEmptyMatch "senderName" fields = some r.vendor_name := by
  obtain ⟨h1, h2, -⟩ := parse_ok_components fields r h
  rw [← scanFields_num, ← scanFields_sender]
  exact ⟨h1, h2⟩

theorem parse_last_match_wins_witness :
    lastNonEmptyMatch "invoiceNumber" dupInvoiceFields = some "B" ∧
    lastNonEmptyMatch "senderName" dupInvoiceFields = some "S" :=
  parse_last_match_wins dupInvoiceFields ⟨"B", "S", 87/100⟩ (by decide)

/-- C2: the claim says the score EQUALS the arithmetic mean; on
`thirdsFields` the mean of the non-zero confidences is `5/12` but the
parser reports `round(5/12, 2) = 0.42` — the claim is false. -/
theorem parse_confidence_mean_counterexample :
    parse_extraction_results thirdsFields = .ok ⟨"I", "V", 21/50⟩ ∧
    avgNonZeroConf thirdsFields = 5/12 ∧ (21 : ℚ)/50 ≠ 5/12 := by decide

/-- C2 (amended): the parser's `confidence_score` equals the arithmetic
mean of all present non-zero confidences ROUNDED to two decimal places
(ties to even); it is `0` when no such confidence is present; and the
spec's example yields `invoice_number="INV-1"`, `vendor_name="Acme"`,
`confidence_score=0.85` (the rounding is exact there). -/
theorem parse_confidence_score_spec :
    (∀ fields r, parse_extraction_results fields = .ok r →
        r.confidence_score = round2 (avgNonZeroConf fields)) ∧
    (∀ fields r, parse_extraction_results fields = .ok r →
        nonZeroConfs fields = [] → r.confidence_score = 0) ∧
    parse_extraction_results exampleFields = .ok ⟨"INV-1", "Acme", 17/20⟩ ∧
    avgNonZeroConf exampleFields = 17/20 := by
  refine ⟨fun fields r h => (parse_ok_components fields r h).2.2,
    ?_, by decide, by decide⟩
  intro fields r h hnone
  rw [(parse_ok_components fields r h).2.2, avgNonZeroConf, hnone]
  simp only [List.isEmpty_nil, if_true]
  decide

theorem parse_confidence_score_spec_witness :
    (⟨"INV-1", "Acme", 17/20⟩ : ParsedInvoice).confidence_score =
      round2 (avgNonZeroConf exampleFields) :=
  parse_confidence_score_spec.1 exampleFields ⟨"INV-1", "Acme", 17/20⟩ (by decide)

/-- C6: when the field list holds no non-empty `invoiceNumber` field or
no non-empty `senderName` field, the parser fails with the corresponding
field-missing error (and in particular never returns a result). -/
theorem parse_missing_field_fails (fields : List HeaderField)
    (h : noNonEmptyField "invoiceNumber" fields ∨ noNonEmptyField "senderName" fields) :
    parse_extraction_results fields = .error invoiceNumberMissingMsg ∨
    parse_extraction_results fields = .error vendorNameMissingMsg := by
  rcases h with h | h
  · left
    have hn : (scanFields fields).1 = none := by
      rw [scanFields_num]; exact lastNonEmptyMatch_eq_none _ _ h
    simp only [parse_extraction_results, hn]
    rfl
  · by_cases h1 : (scanFields fields).1.getD "" = ""
    · left
      simp only [parse_extraction_results]
      rw [if_pos h1]
    · right
      have hn : (scanFields fields).2.1 = none := by
        rw [scanFields_sender]; exact lastNonEmptyMatch_eq_none _ _ h
      simp only [parse_extraction_results, hn]
      rw [if_neg h1]
      rfl

theorem parse_missing_field_fails_witness :
    parse_extraction_results noSenderFields = .error invoiceNumberMissingMsg ∨
    parse_extraction_results noSenderFields = .error vendorNameMissingMsg :=
  parse_missing_field_fails noSenderFields (Or.inr (by decide))

end DecideOnRat

/-! ## Lemmas about the poll loop -/

theorem pollAux_step_retry (resp : ℕ → PollResponse) (i fuel : ℕ)
    (h : isRetry (resp i)) :
    pollAux resp (fuel + 1) i =
      ⟨(pollAux resp fuel (i + 1)).outcome, (pollAux resp fuel (i + 1)).polls + 1,
       (pollAux resp fuel (i + 1)).sleeps + 1⟩ := by
  obtain ⟨hok, hst⟩ := h
  simp only [pollAux]
  rw [if_neg (by simp [hok]), if_neg (by rcases hst with h1 | h1 <;> simp [h1]),
    if_neg (by rcases hst with h1 | h1 <;> simp [h1]), if_pos hst]

theorem pollAux_run_retries (resp : ℕ → PollResponse) :
    ∀ (n i fuel : ℕ), n ≤ fuel → (∀ j, j < n → isRetry (resp (i + j))) →
      pollAux resp fuel i =
        ⟨(pollAux resp (fuel - n) (i + n)).outcome,
         (pollAux resp (fuel - n) (i + n)).polls + n,
         (pollAux resp (fuel - n) (i + n)).sleeps + n⟩ := by
  intro n
  induction n with
  | zero => intro i fuel _ _; simp
  | succ n ih =>
      intro i fuel hle hr
      obtain ⟨f, rfl⟩ : ∃ f, fuel = f + 1 := ⟨fuel - 1, by omega⟩
      have h0 : isRetry (resp i) := by
        have := hr 0 (by omega)
        rwa [Nat.add_zero] at this
      rw [pollAux_step_retry resp i f h0]
      have hr' : ∀ j, j < n → isRetry (resp (i + 1 + j)) := by
        intro j hj
        have := hr (j + 1) (by omega)
        rwa [show i + (j + 1) = i + 1 + j by omega] at this
      rw [ih (i + 1) f (by omega) hr']
      have e1 : f - n = f + 1 - (n + 1) := by omega
      have e2 : i + 1 + n = i + (n + 1) := by omega
      rw [e1, e2]
      rfl

theorem pollAux_terminal (resp : ℕ → PollResponse) (i fuel : ℕ)
    (hok : (resp i).httpStatus = 200) :
    ((resp i).status = some "DONE" →
      pollAux resp (fuel + 1) i = ⟨.done (resp i), 1, 0⟩) ∧
    ((resp i).status = some "FAILED" →
      pollAux resp (fuel + 1) i = ⟨.failed (failedStatusMsg (resp i)), 1, 0⟩) ∧
    ((resp i).status ≠ some "DONE" → (resp i).status ≠ some "FAILED" →
     (resp i).status ≠ some "PENDING" → (resp i).status ≠ some "RUNNING" →
      pollAux resp (fuel + 1) i = ⟨.unknownStatus (unknownStatusMsg (resp i)), 1, 0⟩) := by
  refine ⟨?_, ?_, ?_⟩
  · intro hd
    simp only [pollAux]
    rw [if_neg (by simp [hok]), if_pos hd]
  · intro hf
    simp only [pollAux]
    rw [if_neg (by simp [hok]), if_neg (by simp [hf]), if_pos hf]
  · intro hnd hnf hnp hnr
    simp only [pollAux]
    rw [if_neg (by simp [hok]), if_neg hnd, if_neg hnf,
      if_neg (by rintro (h1 | h1) <;> [exact hnp h1; exact hnr h1])]

/-- C3: behaviour of `_poll_for_results` over an arbitrary sequence of
poll responses.  If the first `n < 30` responses all carry status
PENDING/RUNNING (each causing exactly one sleep) and the `n`-th response
is terminal, the loop returns the DONE body / vendor-reported failure /
unknown-status failure of that response after exactly `n + 1` polls and
`n` sleeps; if all 30 responses are PENDING/RUNNING, it fails with the
timeout error after exactly 30 polls and 30 sleeps. -/
theorem poll_for_results_spec (resp : ℕ → PollResponse) :
    (∀ n, n < max_poll_attempts → (∀ j, j < n → isRetry (resp j)) →
      (resp n).httpStatus = 200 →
      (((resp n).status = some "DONE" →
          poll_for_results resp = ⟨.done (resp n), n + 1, n⟩) ∧
       ((resp n).status = some "FAILED" →
          poll_for_results resp = ⟨.failed (failedStatusMsg (resp n)), n + 1, n⟩) ∧
       ((resp n).status ≠ some "DONE" → (resp n).status ≠ some "FAILED" →
        (resp n).status ≠ some "PENDING" → (resp n).status ≠ some "RUNNING" →
          poll_for_results resp =
            ⟨.unknownStatus (unknownStatusMsg (resp n)), n + 1, n⟩))) ∧
    ((∀ j, j < max_poll_attempts → isRetry (resp j)) →
      poll_for_results resp =
        ⟨.timeout timeoutMsg, max_poll_attempts, max_poll_attempts⟩) := by
  constructor
  · intro n hn hr hok
    have hr0 : ∀ j, j < n → isRetry (resp (0 + j)) := by
      intro j hj; rw [Nat.zero_add]; exact hr j hj
    have hrun := pollAux_run_retries resp n 0 max_poll_attempts (by omega) hr0
    rw [Nat.zero_add] at hrun
    obtain ⟨m, hm⟩ : ∃ m, max_poll_attempts - n = m + 1 :=
      ⟨max_poll_attempts - n - 1, by unfold max_poll_attempts at hn ⊢; omega⟩
    rw [hm] at hrun
    have hterm := pollAux_terminal resp n m hok
    refine ⟨fun hd => ?_, fun hf => ?_, fun hnd hnf hnp hnr => ?_⟩
    · rw [poll_for_results, hrun, hterm.1 hd]
      simp [Nat.add_comm]
    · rw [poll_for_results, hrun, hterm.2.1 hf]
      simp [Nat.add_comm]
    · rw [poll_for_results, hrun, hterm.2.2 hnd hnf hnp hnr]
      simp [Nat.add_comm]
  · intro hr
    have hr0 : ∀ j, j < max_poll_attempts → isRetry (resp (0 + j)) := by
      intro j hj; rw [Nat.zero_add]; exact hr j hj
    have hrun := pollAux_run_retries resp max_poll_attempts 0 max_poll_attempts
      (Nat.le_refl _) hr0
    rw [Nat.zero_add, Nat.sub_self] at hrun
    rw [poll_for_results, hrun]
    simp [pollAux]

theorem poll_for_results_spec_witness :
    poll_for_results ppDoneResp = ⟨.done ⟨200, some "DONE", none, "payload"⟩, 3, 2⟩ :=
  (((poll_for_results_spec ppDoneResp).1 2 (by decide) (by decide) (by decide)).1
    (by decide))

/-! ## The token cache -/

/-- C4: a valid cached token (truthy, and `now` strictly before expiry
minus 300 s) is returned without contacting the identity endpoint;
otherwise exactly one request is sent, and on a 200 response carrying an
`access_token` the token is stored with expiry `now + expires_in`
(43200 s — 12 h — when `expires_in` is absent) and returned; a non-200
response raises an authentication error (still a single request: the
source has no retry). -/
theorem get_access_token_spec (st : UAAState) (now : ℚ) (resp : TokenResponse) :
    (cacheValid st now →
      get_access_token st now resp = (.token (st.cached_token.getD ""), st, false)) ∧
    (¬ cacheValid st now → (get_access_token st now resp).2.2 = true) ∧
    (¬ cacheValid st now → resp.status_code = 200 →
      ∀ tok, resp.access_token = some tok →
        get_access_token st now resp =
          (.token tok, ⟨some tok, now + resp.expires_in.getD 43200⟩, true)) ∧
    (¬ cacheValid st now → resp.status_code ≠ 200 →
      get_access_token st now resp = (.authError (authFailMsg resp), st, true)) := by
  refine ⟨fun h => ?_, fun h => ?_, fun h h200 tok htok => ?_, fun h hne => ?_⟩
  · rw [get_access_token, if_pos h]
  · rw [get_access_token, if_neg h]
    by_cases h2 : resp.status_code ≠ 200
    · rw [if_pos h2]
    · rw [if_neg h2]
      cases resp.access_token <;> rfl
  · rw [get_access_token, if_neg h, if_neg (by simp [h200]), htok]
  · rw [get_access_token, if_neg h, if_pos hne]

/-- C10: when the endpoint is consulted (no valid cached token) and
answers with a non-success status, the call raises the authentication
error and the cache — token string and expiry instant alike — is exactly
what it was before the call. -/
theorem get_access_token_failure_preserves_cache (st : UAAState) (now : ℚ)
    (resp : TokenResponse) (hmiss : ¬ cacheValid st now)
    (hne : resp.status_code ≠ 200) :
    (get_access_token st now resp).1 = .authError (authFailMsg resp) ∧
    ((get_access_token st now resp).2.1).cached_token = st.cached_token ∧
    ((get_access_token st now resp).2.1).token_expires_at = st.token_expires_at := by
  rw [get_access_token, if_neg hmiss, if_pos hne]
  exact ⟨rfl, rfl, rfl⟩

section DecideOnRatTimes

attribute [local semireducible] Rat.add Rat.mul Rat.inv Rat.sub

theorem get_access_token_spec_witness :
    (get_access_token ⟨some "tok", 10000⟩ 0 ⟨500, "", none, none⟩ =
      (.token "tok", ⟨some "tok", 10000⟩, false)) ∧
    (get_access_token ⟨none, 0⟩ 7 ⟨200, "", some "fresh", none⟩ =
      (.token "fresh", ⟨some "fresh", 7 + 43200⟩, true)) :=
  ⟨(get_access_token_spec ⟨some "tok", 10000⟩ 0 ⟨500, "", none, none⟩).1 (by decide),
   (get_access_token_spec ⟨none, 0⟩ 7 ⟨200, "", some "fresh", none⟩).2.2.1
     (by decide) (by decide) "fresh" rfl⟩

theorem get_access_token_failure_preserves_cache_witness :
    (get_access_token ⟨some "old", 100⟩ 99999 ⟨503, "down", none, none⟩).1 =
      .authError (authFailMsg ⟨503, "down", none, none⟩) ∧
    ((get_access_token ⟨some "old", 100⟩ 99999 ⟨503, "down", none, none⟩).2.1).cached_token =
      some "old" ∧
    ((get_access_token ⟨some "old", 100⟩ 99999 ⟨503, "down", none, none⟩).2.1).token_expires_at =
      100 :=
  get_access_token_failure_preserves_cache ⟨some "old", 100⟩ 99999
    ⟨503, "down", none, none⟩ (by decide) (by decide)

end DecideOnRatTimes

/-! ## The upload handler -/

theorem cleanupTemp_clears (b : Bool) : cleanupTemp b = false := by
  cases b <;> rfl

/-- C5: when validation passed and extraction (or any later step of the
`try` body) raises, the handler attempts exactly one best-effort FAILED
record carrying the error message, discards that insert's own outcome —
whatever it is — and surfaces the original error as a single 422 with a
descriptive message. -/
theorem upload_extraction_failure_spec (req : UploadRequest) (env : UploadEnv)
    (e : String) (hpdf : pdfName req.filename = true)
    (hsize : req.content_size ≤ env.max_file_size_mb * 1024 * 1024)
    (hext : env.extraction = .error e) :
    (upload_invoice req env).failure_record = some (⟨"FAILED", e⟩, env.failure_insert) ∧
    (upload_invoice req env).outcome = .httpError 422 (processFailMsg e) := by
  rw [upload_invoice, if_neg (by simp [hpdf])]
  simp only [uploadTryBody, hext]
  rw [if_neg (Nat.not_lt.mpr hsize)]
  exact ⟨rfl, rfl⟩

theorem upload_extraction_failure_spec_witness :
    (upload_invoice ⟨"a.pdf", 1000⟩ ⟨10, .error "boom", .ok 1, .error "db down"⟩).failure_record =
      some (⟨"FAILED", "boom"⟩, .error "db down") ∧
    (upload_invoice ⟨"a.pdf", 1000⟩ ⟨10, .error "boom", .ok 1, .error "db down"⟩).outcome =
      .httpError 422 (processFailMsg "boom") :=
  upload_extraction_failure_spec ⟨"a.pdf", 1000⟩ ⟨10, .error "boom", .ok 1, .error "db down"⟩
    "boom" (by decide) (by decide) rfl

/-- C7: on every exit path of the upload handler the temporary file does
not survive the request; and every oversize upload is rejected with a
400 response (with no surviving temporary file, by the first part). -/
theorem upload_temp_file_never_survives (req : UploadRequest) (env : UploadEnv) :
    (upload_invoice req env).temp_file_exists = false ∧
    (req.content_size > env.max_file_size_mb * 1024 * 1024 →
      ∃ d, (upload_invoice req env).outcome = .httpError 400 d) := by
  constructor
  · rw [upload_invoice]
    by_cases h : pdfName req.filename = false
    · rw [if_pos h]
    · rw [if_neg h]
      exact cleanupTemp_clears _
  · intro hover
    rw [upload_invoice]
    by_cases h : pdfName req.filename = false
    · rw [if_pos h]
      exact ⟨invalidTypeMsg, rfl⟩
    · rw [if_neg h]
      refine ⟨oversizeMsg env.max_file_size_mb, ?_⟩
      simp only [uploadTryBody, if_pos hover]

theorem upload_temp_file_never_survives_witness :
    (upload_invoice ⟨"big.pdf", 20000000⟩ ⟨10, .error "x", .ok 1, .ok 1⟩).temp_file_exists =
      false ∧
    ∃ d, (upload_invoice ⟨"big.pdf", 20000000⟩ ⟨10, .error "x", .ok 1, .ok 1⟩).outcome =
      .httpError 400 d :=
  ⟨(upload_temp_file_never_survives ⟨"big.pdf", 20000000⟩ ⟨10, .error "x", .ok 1, .ok 1⟩).1,
   (upload_temp_file_never_survives ⟨"big.pdf", 20000000⟩ ⟨10, .error "x", .ok 1, .ok 1⟩).2
     (by decide)⟩

/-! ## The database service -/

/-- C8: every persistence operation (insert, get, list, ping) runs in
its own scoped connection: when the body succeeds the events are
connect–commit–close and the body's value is returned; when the body
fails the events are connect–rollback–close and the very same error is
re-raised; in both cases the connection is opened and closed. -/
theorem db_operation_connection_discipline (op : DbOp) (db : List InvoiceRow)
    (now : ℕ) (execOk : Bool) :
    (∀ v, opBody execOk db now op = .ok v →
      runOp true execOk db now op = (.ok v, [.connect, .commit, .close])) ∧
    (∀ e, opBody execOk db now op = .error e →
      runOp true execOk db now op = (.error e, [.connect, .rollback, .close])) ∧
    .connect ∈ (runOp true execOk db now op).2 ∧
    .close ∈ (runOp true execOk db now op).2 := by
  refine ⟨fun v hv => ?_, fun e he => ?_, ?_, ?_⟩
  · rw [runOp, hv]; rfl
  · rw [runOp, he]; rfl
  · cases hb : opBody execOk db now op <;>
      simp [runOp, withConnection, hb]
  · cases hb : opBody execOk db now op <;>
      simp [runOp, withConnection, hb]

theorem db_operation_connection_discipline_witness :
    runOp true true [] 0 .ping = (.ok (.pinged true, []), [.connect, .commit, .close]) ∧
    runOp true false [] 0 .ping =
      (.error "database error", [.connect, .rollback, .close]) :=
  ⟨(db_operation_connection_discipline .ping [] 0 true).1 (.pinged true, []) rfl,
   (db_operation_connection_discipline .ping [] 0 false).2.1 "database error" rfl⟩

/-- C9: the list endpoint's records are ordered by upload timestamp
descending, its `total` equals the number of records returned on that
page (`len(invoice_details)`, not the store's row count), and `limit`
and `offset` are echoed. -/
theorem list_endpoint_spec (db : List InvoiceRow) (limit offset : ℕ) :
    List.Sorted tsDesc (get_all_invoices_endpoint db limit offset).invoices ∧
    (get_all_invoices_endpoint db limit offset).total =
      (get_all_invoices_endpoint db limit offset).invoices.length ∧
    (get_all_invoices_endpoint db limit offset).limit = limit ∧
    (get_all_invoices_endpoint db limit offset).offset = offset := by
  refine ⟨?_, rfl, rfl, rfl⟩
  have hs : List.Sorted tsDesc (db.insertionSort tsDesc) :=
    List.sorted_insertionSort tsDesc db
  have hsub : List.Sublist (pageOf db limit offset) (db.insertionSort tsDesc) :=
    (List.take_sublist _ _).trans (List.drop_sublist _ _)
  exact List.Pairwise.sublist hsub hs

end OcrInSap
